import Mathlib

/-!
Verification of the sandboxed-compiled worker of `ramp-engine`
(`ramp_engine/cpp_runner.py`, class `CppCondaEnvWorker`).

The worker lifecycle methods `launch_submission` and `collect_results` are
embedded as pure Lean functions.  External effects (the compiler toolchain,
the sandboxed test-case processes, the judge) are abstracted by an
environment oracle `Env` supplying their exit codes, durations and captured
output.  Wall-clock time is modelled by natural numbers: launching a batch is
instantaneous, `t0` is sampled at the start of each batch, and joining a
process advances the clock to that process finish time (`t0 +` its duration),
exactly mirroring the `time.perf_counter` arithmetic of the source.  The
filesystem state relevant to the claims (the submission `training_output`
directory and the predictions directory) is carried explicitly.
-/

/-- Worker statuses, as documented on `CppCondaEnvWorker`. -/
inductive WStatus where
  | initialized
  | setup
  | error
  | running
  | finished
  | timeout
  | collected
  | retry
deriving DecidableEq, Repr

/-- The in-memory worker state used by the two lifecycle methods under
verification: its submission name, status, `_return_code`, and the current
content of its log file (`logs_dir/<submission>/log`). -/
structure Worker where
  submission : String
  status : WStatus
  returnCode : Int
  log : String
deriving DecidableEq, Repr

/-- Contents of the submitted source files: `solution.cpp` and `Main.java`
(`none` means the file does not exist in the submission directory). -/
structure Submission where
  solutionCpp : Option String
  mainJava : Option String
deriving DecidableEq, Repr

/-- Environment oracle abstracting the external processes invoked by
`launch_submission`: the compiler toolchain (gcc for C++ submissions, javac
otherwise; both are captured by one exit code and one captured output), the
sandboxed test-case processes (duration in model time units and exit code per
test-case index), and the judge process. -/
structure Env where
  compileExit : Int
  compileOutput : String
  dur : Nat → Nat
  exitCode : Nat → Int
  caseOutput : Nat → String
  runStderr : String
  judgeExit : Int
  judgeOutput : String

/-- Observable actions of one `launch_submission` run: invoking the compiler,
spawning / joining / killing the sandboxed process of a test-case index, and
invoking the judge. -/
inductive Event where
  | compile
  | spawn (idx : Nat)
  | join (idx : Nat)
  | kill (idx : Nat)
  | judge
deriving DecidableEq, Repr

/-- Filesystem state relevant to the claims: the files written under
`<submissions_dir>/<name>/training_output` (a test-case output file is keyed
by its case index), and the per-submission predictions directories
(`predictions_dir/<name>`, `none` when absent). -/
structure FS where
  trainingOutput : List (Nat × String)
  predictions : String → Option (List (Nat × String))

/-- Exit-code constant from `cpp_runner.py`. -/
def EMPTY_SUBMISSION : Int := 1223

/-- Exit-code constant from `cpp_runner.py`. -/
def COMPILATION_ERROR : Int := 1220

/-- Exit-code constant from `cpp_runner.py`. -/
def RUNTIME_ERROR : Int := 1221

/-- Exit-code constant from `cpp_runner.py`. -/
def SCORING_ERROR : Int := 1222

/-- Embedding of Python `str.strip` (drop leading and trailing whitespace). -/
def strip (s : String) : String :=
  String.mk (((s.data.dropWhile Char.isWhitespace).reverse.dropWhile
    Char.isWhitespace).reverse)

/-- Embedding of Python `str.replace` on character lists: replace every
(non-overlapping, leftmost-first) occurrence of a non-empty `pat` by `rep`.
The recursion is driven by a fuel argument so that it is structural (and hence
evaluates inside the kernel); every step consumes at least one character of
`s`, so any fuel of at least `s.length` computes the full replacement. -/
def replaceAux (pat rep : List Char) : Nat → List Char → List Char
  | _, [] => []
  | 0, s => s
  | fuel + 1, c :: rest =>
    if pat ≠ [] ∧ pat.isPrefixOf (c :: rest) then
      rep ++ replaceAux pat rep fuel ((c :: rest).drop pat.length)
    else
      c :: replaceAux pat rep fuel rest

/-- Embedding of Python `str.replace`. -/
def pyReplace (s pat rep : String) : String :=
  String.mk (replaceAux pat.data rep.data s.data.length s.data)

/-- Modelled from the spec: `_get_traceback` (imported from
`ramp_engine.base`, which is not part of the sources under verification).
The spec states that the collected message is the captured stdout+stderr of
the phase that produced it (for a compilation failure, "message = captured
compiler stderr/stdout"), so the log post-processing is the identity on the
log text. -/
def get_traceback (content : String) : String := content

/-- Embedding of `CppCondaEnvWorker.is_cpp_submission`: True iff
`solution.cpp` exists and its stripped text is longer than 10 characters. -/
def is_cpp_submission (sub : Submission) : Bool :=
  match sub.solutionCpp with
  | some c => decide (10 < (strip c).length)
  | none => false

/-- Embedding of `CppCondaEnvWorker.is_empty_submission`: True iff
`solution.cpp` exists with stripped length below 3 AND `Main.java` exists
with stripped length below 3. -/
def is_empty_submission (sub : Submission) : Bool :=
  match sub.solutionCpp, sub.mainJava with
  | some c, some j => decide ((strip c).length < 3) && decide ((strip j).length < 3)
  | _, _ => false

/-- Batch size of the test-case execution loop (hardcoded `batch_size = 5` in
`launch_submission`). -/
def batch_size : Nat := 5

/-- Number of batches of the test-case execution loop
(`for n_batch in range(4)`). -/
def n_batches : Nat := 4

/-- Test-case indices launched by batch `nb`:
`idx = batch_size * n_batch + sub_idx` for `sub_idx in range(batch_size)`,
skipping `idx > 9` (the `continue` guard). -/
def batchProcs (nb : Nat) : List Nat :=
  ((List.range batch_size).map (fun s => batch_size * nb + s)).filter
    (fun i => decide (i ≤ 9))

/-- Outcome of the join loop (`for p in procs: ... p.communicate(...)`) of one
batch: either all processes were joined (carrying the new clock value and the
aggregated return code), or the worker timed out (carrying the clock value at
which it gave up).  In both cases the join/kill events are recorded. -/
inductive JoinOutcome where
  | ok (now : Nat) (acc : Int) (evs : List Event)
  | timedOut (endT : Nat) (evs : List Event)

/-- Embedding of the join loop of one batch.  `t0` is the clock value sampled
at the start of the batch, `allProcs` the indices of every process of the
batch (they were all spawned at time `t0`), `rest` the processes not yet
joined, `now` the clock, `acc` the running `_return_code`.

For each process the remaining budget is `dt = max(t0 + timeout - now, 0)`
(natural subtraction).  If `dt = 0` the worker records timeout and returns
without killing anything (the `if dt == 0` branch of the source).  Otherwise
`p.communicate(timeout=dt)` succeeds exactly when the process finishes by
`now + dt = t0 + timeout`, i.e. when its duration is at most `timeout`
(processes run since `t0`); on success the clock advances to the finish time
and `_return_code = max(p.returncode, _return_code)`.  On
`TimeoutExpired` every process of the batch is killed
(`for p in procs: p.kill()`) and the worker records timeout at the deadline. -/
def joinProcs (timeout : Nat) (env : Env) (t0 : Nat) (allProcs : List Nat) :
    List Nat → Nat → Int → JoinOutcome
  | [], now, acc => .ok now acc []
  | p :: rest, now, acc =>
    if t0 + timeout - now = 0 then
      .timedOut now []
    else if timeout < env.dur p then
      .timedOut (t0 + timeout) (allProcs.map Event.kill)
    else
      match joinProcs timeout env t0 allProcs rest (max now (t0 + env.dur p))
          (max (env.exitCode p) acc) with
      | .ok n a evs => .ok n a (Event.join p :: evs)
      | .timedOut eT evs => .timedOut eT (Event.join p :: evs)

/-- Result of the whole batched execution: whether it timed out, the final
`_return_code` accumulator, the event trace, and the final clock value. -/
structure RunResult where
  timedOut : Bool
  acc : Int
  evs : List Event
  endTime : Nat
deriving Repr

/-- Embedding of the batch loop `for n_batch in range(4)` of
`launch_submission`, over the list `bs` of remaining batch numbers.  At the
start of each batch the clock is sampled (`t0 = time.perf_counter()`), every
process of the batch is spawned, and the join loop runs.  On timeout the loop
stops with `_return_code = 124`. -/
def runBatchesFrom (timeout : Nat) (env : Env) : List Nat → Nat → Int → RunResult
  | [], now, acc => ⟨false, acc, [], now⟩
  | nb :: rest, now, acc =>
    match joinProcs timeout env now (batchProcs nb) (batchProcs nb) now acc with
    | .ok now' acc' jevs =>
      let r := runBatchesFrom timeout env rest now' acc'
      ⟨r.timedOut, r.acc, (batchProcs nb).map Event.spawn ++ (jevs ++ r.evs),
        r.endTime⟩
    | .timedOut endT jevs =>
      ⟨true, 124, (batchProcs nb).map Event.spawn ++ jevs, endT⟩

/-- Files created under `training_output` by a run: spawning the process of
test case `i` creates `output/case<i>.out` (its content is given by the
oracle).  The score files written by the judge are not tracked. -/
def trainingWrites (env : Env) (evs : List Event) : List (Nat × String) :=
  evs.filterMap (fun e =>
    match e with
    | .spawn i => some (i, env.caseOutput i)
    | _ => none)

/-- Continuation of `launch_submission` after the compile step succeeded:
run the batches, then either record the timeout (status `timeout`, return
code 124), or return early when the aggregated code is positive
(`if self._return_code > 0: return` — note this check sits after the whole
batch loop), or invoke the judge (`SCORING_ERROR` on non-zero judge exit).
The log file is truncated between phases, so its final content is the
captured output of the last phase that wrote to it. -/
def afterBatches (env : Env) (w : Worker) (fs : FS) (r : RunResult) :
    Except String (Worker × FS × List Event × Nat) :=
  if r.timedOut then
    .ok ({ w with
            status := WStatus.timeout, returnCode := 124, log := env.runStderr },
      { fs with trainingOutput := fs.trainingOutput ++ trainingWrites env r.evs },
      Event.compile :: r.evs, r.endTime)
  else if 0 < r.acc then
    .ok ({ w with
            status := WStatus.finished, returnCode := r.acc, log := env.runStderr },
      { fs with trainingOutput := fs.trainingOutput ++ trainingWrites env r.evs },
      Event.compile :: r.evs, r.endTime)
  else if env.judgeExit ≠ 0 then
    .ok ({ w with
            status := WStatus.finished, returnCode := SCORING_ERROR,
            log := env.judgeOutput },
      { fs with trainingOutput := fs.trainingOutput ++ trainingWrites env r.evs },
      Event.compile :: (r.evs ++ [Event.judge]), r.endTime)
  else
    .ok ({ w with
            status := WStatus.finished, returnCode := r.acc,
            log := env.judgeOutput },
      { fs with trainingOutput := fs.trainingOutput ++ trainingWrites env r.evs },
      Event.compile :: (r.evs ++ [Event.judge]), r.endTime)

/-- Embedding of `CppCondaEnvWorker.launch_submission`.  Raises when already
`running`; sets status to `finished` and `_return_code` to 0; rejects an empty
submission with `EMPTY_SUBMISSION` before compiling; compiles (non-zero
compiler exit gives `COMPILATION_ERROR` with the captured compiler output left
in the log, and nothing else runs); then executes the test-case batches and
possibly the judge.  The launch clock starts at 0.  The returned data are the
new worker state, the new filesystem state, the event trace and the final
clock value. -/
def launch_submission (timeout : Nat) (env : Env) (sub : Submission)
    (w : Worker) (fs : FS) : Except String (Worker × FS × List Event × Nat) :=
  if w.status = WStatus.running then
    .error "Wait that the submission is processed before to launch a new one."
  else if is_empty_submission sub then
    .ok ({ w with
            status := WStatus.finished, returnCode := EMPTY_SUBMISSION,
            log := "" }, fs, [], 0)
  else if env.compileExit ≠ 0 then
    .ok ({ w with
            status := WStatus.finished, returnCode := COMPILATION_ERROR,
            log := env.compileOutput }, fs, [Event.compile], 0)
  else
    afterBatches env w fs (runBatchesFrom timeout env (List.range n_batches) 0 0)

/-- The string the isolation layer leaves in the log when the sandboxed
process was reaped at its memory ceiling. -/
def oomMarker : String := "sh: 1: pause: not found"

/-- The fixed out-of-memory replacement text of `collect_results`. -/
def oomMessage : String := "Killed due to out of memory (limit at 500 MB)"

/-- The predictions-copy step of `collect_results`:
`shutil.rmtree(pred_dir, ignore_errors=True)` followed by
`shutil.copytree(output_training_dir, pred_dir)` — the predictions directory
of this submission becomes exactly the `training_output` directory, and every
other submission directory is untouched. -/
def pushPreds (w : Worker) (fs : FS) : FS :=
  { fs with predictions := fun n =>
      if n = w.submission then some fs.trainingOutput else fs.predictions n }

/-- Embedding of `CppCondaEnvWorker.collect_results`.  Raises on statuses
`initialized` and `setup`; on `finished`, `running` or `timeout` it derives
the message from the log, forces return code 124 for a timed-out worker,
rewrites known raw codes (139, `EMPTY_SUBMISSION`) to fixed messages, replaces
every occurrence of the isolation-layer memory marker, copies the
`training_output` directory over the predictions directory, sets the status
to `collected` and returns `(returncode, message)`.  On any other status
(`error`, `collected`, `retry`) no branch applies and the method returns
`None` leaving every state unchanged. -/
def collect_results (timeout : Nat) (w : Worker) (fs : FS) :
    Except String (Worker × FS × Option (Int × String)) :=
  if w.status = WStatus.initialized then
    .error "The worker has not been setup and no submission was launched."
  else if w.status = WStatus.setup then
    .error "No submission was launched."
  else if w.status = WStatus.finished ∨ w.status = WStatus.running ∨
      w.status = WStatus.timeout then
    let msg0 := get_traceback w.log
    let msg1 := if w.status = WStatus.timeout then
        msg0 ++ "\nWorker killed due to timeout after " ++ toString timeout ++ "s."
      else msg0
    let rc : Int := if w.status = WStatus.timeout then 124 else w.returnCode
    let msg2 := if rc ≠ 0 then
        pyReplace
          (if rc = 139 then "Segmentation fault (core dumped)"
           else if rc = EMPTY_SUBMISSION then "Error: empty submission code."
           else msg1) oomMarker oomMessage
      else msg1
    .ok ({ w with status := WStatus.collected }, pushPreds w fs, some (rc, msg2))
  else
    .ok (w, fs, none)

/-! ### Trace analysis definitions -/

/-- Remove one occurrence of `i` (the first one) from a list of live process
indices. -/
def removeOne : List Nat → Nat → List Nat
  | [], _ => []
  | x :: xs, i => if x = i then xs else x :: removeOne xs i

/-- How one event changes the set of live (spawned, not yet joined or killed)
sandboxed processes. -/
def stepLive (live : List Nat) (e : Event) : List Nat :=
  match e with
  | .spawn i => i :: live
  | .join i => removeOne live i
  | .kill i => removeOne live i
  | _ => live

/-- The live processes after a sequence of events, starting from `live`. -/
def runLive (live : List Nat) (evs : List Event) : List Nat :=
  evs.foldl stepLive live

/-- True for the events that can only shrink the live set. -/
def joinish (e : Event) : Bool :=
  match e with
  | .join _ => true
  | .kill _ => true
  | _ => false

/-- Indices of the test-case processes joined in a trace, in order. -/
def joinedIdxs (evs : List Event) : List Nat :=
  evs.filterMap (fun e =>
    match e with
    | .join i => some i
    | _ => none)

/-- Indices of the test-case processes spawned in a trace, in order. -/
def spawnedIdxs (evs : List Event) : List Nat :=
  evs.filterMap (fun e =>
    match e with
    | .spawn i => some i
    | _ => none)

/-- The maximum non-negative exit code observed across the joined test-case
processes of a trace (0 when none is positive), accumulated exactly as the
source does with `self._return_code = max(p.returncode, self._return_code)`
starting from 0. -/
def aggCode (env : Env) (evs : List Event) : Int :=
  (joinedIdxs evs).foldl (fun x i => max (env.exitCode i) x) 0

/-- The event list of a join-loop outcome. -/
def JoinOutcome.evs : JoinOutcome → List Event
  | .ok _ _ evs => evs
  | .timedOut _ evs => evs

/-- Concatenation of the lists produced by `f` over a list of batch
numbers. -/
def catMap (f : Nat → List Nat) : List Nat → List Nat
  | [] => []
  | x :: xs => f x ++ catMap f xs

/-- Worker state returned by a successful `launch_submission`. -/
def launchWorker : Except String (Worker × FS × List Event × Nat) → Worker
  | .ok (w, _, _, _) => w
  | .error _ => ⟨"", WStatus.error, 0, ""⟩

/-- Event trace returned by a successful `launch_submission`. -/
def launchEvents : Except String (Worker × FS × List Event × Nat) → List Event
  | .ok (_, _, evs, _) => evs
  | .error _ => []

/-! ### Helper lemmas about the live-process set -/

theorem removeOne_length_le (l : List Nat) (i : Nat) :
    (removeOne l i).length ≤ l.length := by
  induction l with
  | nil => simp [removeOne]
  | cons x xs ih =>
    simp only [removeOne]
    split
    · simp
    · simpa using ih

theorem removeOne_subset (l : List Nat) (i : Nat) : removeOne l i ⊆ l := by
  induction l with
  | nil => simp [removeOne]
  | cons x xs ih =>
    simp only [removeOne]
    split
    · intro a ha; exact List.mem_cons_of_mem x ha
    · exact List.cons_subset_cons x ih

theorem removeOne_append (l₁ l₂ : List Nat) (i : Nat) (h : i ∉ l₁) :
    removeOne (l₁ ++ l₂) i = l₁ ++ removeOne l₂ i := by
  induction l₁ with
  | nil => simp
  | cons x xs ih =>
    simp only [List.mem_cons, not_or] at h
    have hx : ¬ x = i := fun hx => h.1 hx.symm
    simp only [List.cons_append, removeOne, if_neg hx]
    exact congrArg (x :: ·) (ih h.2)

theorem prefix_append_cases {α : Type} {p : List α} (a b : List α)
    (h : p <+: a ++ b) : p <+: a ∨ ∃ q, q <+: b ∧ p = a ++ q := by
  induction a generalizing p with
  | nil => exact Or.inr ⟨p, by simpa using h, by simp⟩
  | cons x a' ih =>
    cases p with
    | nil => exact Or.inl List.nil_prefix
    | cons y p' =>
      obtain ⟨t, ht⟩ := h
      simp only [List.cons_append, List.cons.injEq] at ht
      obtain ⟨rfl, ht'⟩ := ht
      rcases ih (p := p') ⟨t, ht'⟩ with h1 | ⟨q, hq, rfl⟩
      · obtain ⟨t', ht''⟩ := h1
        exact Or.inl ⟨t', by simp [ht'']⟩
      · exact Or.inr ⟨q, hq, by simp⟩

theorem runLive_append (live : List Nat) (a b : List Event) :
    runLive live (a ++ b) = runLive (runLive live a) b := by
  simp [runLive, List.foldl_append]

theorem runLive_joinish (evs : List Event) :
    ∀ live p, (∀ e ∈ evs, joinish e = true) → p <+: evs →
    (runLive live p).length ≤ live.length ∧ runLive live p ⊆ live := by
  induction evs with
  | nil =>
    intro live p _ hp
    obtain ⟨t, ht⟩ := hp
    obtain ⟨rfl, -⟩ := List.append_eq_nil.mp ht
    exact ⟨le_refl _, fun a ha => ha⟩
  | cons e rest ih =>
    intro live p hjoin hp
    cases p with
    | nil => exact ⟨le_refl _, fun a ha => ha⟩
    | cons e' p' =>
      obtain ⟨t, ht⟩ := hp
      simp only [List.cons_append, List.cons.injEq] at ht
      obtain ⟨rfl, ht'⟩ := ht
      have hstep : (stepLive live e').length ≤ live.length ∧
          stepLive live e' ⊆ live := by
        have he : joinish e' = true := hjoin e' (List.mem_cons_self _ _)
        cases e' with
        | join i => exact ⟨removeOne_length_le live i, removeOne_subset live i⟩
        | kill i => exact ⟨removeOne_length_le live i, removeOne_subset live i⟩
        | compile => simp [joinish] at he
        | spawn i => simp [joinish] at he
        | judge => simp [joinish] at he
      have hrec := ih (stepLive live e') p'
        (fun e he => hjoin e (List.mem_cons_of_mem _ he)) ⟨t, ht'⟩
      refine ⟨le_trans ?_ hstep.1, fun a ha => hstep.2 (hrec.2 ?_)⟩
      · simpa [runLive] using hrec.1
      · simpa [runLive] using ha

theorem runLive_spawns_prefix (procs : List Nat) :
    ∀ live p, p <+: procs.map Event.spawn →
    (runLive live p).length ≤ live.length + procs.length ∧
    runLive live p ⊆ procs ++ live := by
  induction procs with
  | nil =>
    intro live p hp
    obtain ⟨t, ht⟩ := hp
    simp only [List.map_nil] at ht
    obtain ⟨rfl, -⟩ := List.append_eq_nil.mp ht
    constructor
    · simp [runLive]
    · intro a ha
      simp only [runLive, List.foldl_nil] at ha
      simpa using ha
  | cons x procs' ih =>
    intro live p hp
    cases p with
    | nil =>
      constructor
      · simp only [runLive, List.foldl_nil, List.length_cons]
        omega
      · intro a ha
        simp only [runLive, List.foldl_nil] at ha
        exact List.mem_append.mpr (Or.inr ha)
    | cons e' p' =>
      obtain ⟨t, ht⟩ := hp
      simp only [List.map_cons, List.cons_append, List.cons.injEq] at ht
      obtain ⟨rfl, ht'⟩ := ht
      have hrec := ih (x :: live) p' ⟨t, ht'⟩
      constructor
      · have h1 := hrec.1
        simp only [runLive, List.foldl_cons, stepLive, List.length_cons] at h1 ⊢
        omega
      · intro a ha
        simp only [runLive, List.foldl_cons, stepLive] at ha
        have h2 := hrec.2 (by simpa [runLive] using ha)
        simp only [List.mem_append, List.mem_cons] at h2 ⊢
        tauto

theorem runLive_spawns_full (procs : List Nat) :
    ∀ live, runLive live (procs.map Event.spawn) = procs.reverse ++ live := by
  induction procs with
  | nil => intro live; simp [runLive]
  | cons x procs' ih =>
    intro live
    simp only [List.map_cons, runLive, List.foldl_cons, stepLive]
    have := ih (x :: live)
    simp only [runLive] at this
    simp [this, List.reverse_cons, List.append_assoc]

theorem runLive_joins_full (procs : List Nat) (h : procs.Nodup) :
    runLive procs.reverse (procs.map Event.join) = [] := by
  induction procs with
  | nil => simp [runLive]
  | cons x procs' ih =>
    simp only [List.nodup_cons] at h
    have hrem : removeOne (procs'.reverse ++ [x]) x = procs'.reverse := by
      rw [removeOne_append _ _ _ (by simpa using h.1)]
      simp [removeOne]
    simp only [List.map_cons, runLive, List.foldl_cons, stepLive,
      List.reverse_cons, hrem]
    simpa [runLive] using ih h.2

/-! ### Lemmas about the join loop -/

theorem joinProcs_ok_shape (timeout : Nat) (env : Env) (t0 : Nat)
    (allProcs : List Nat) :
    ∀ rest now acc n a evs,
    joinProcs timeout env t0 allProcs rest now acc = .ok n a evs →
    evs = rest.map Event.join ∧
    a = rest.foldl (fun x i => max (env.exitCode i) x) acc := by
  intro rest
  induction rest with
  | nil =>
    intro now acc n a evs h
    simp only [joinProcs, JoinOutcome.ok.injEq] at h
    simp [h.2.2.symm, h.2.1.symm]
  | cons p rest ih =>
    intro now acc n a evs h
    simp only [joinProcs] at h
    split at h
    · exact absurd h (by simp)
    · split at h
      · exact absurd h (by simp)
      · rcases hrec : joinProcs timeout env t0 allProcs rest
            (max now (t0 + env.dur p)) (max (env.exitCode p) acc) with
          ⟨n', a', evs'⟩ | ⟨eT, evs'⟩
        · rw [hrec] at h
          simp only [JoinOutcome.ok.injEq] at h
          obtain ⟨rfl, rfl, rfl⟩ := h
          obtain ⟨he, ha⟩ := ih _ _ _ _ _ hrec
          subst he; subst ha
          simp [List.foldl_cons]
        · rw [hrec] at h
          exact absurd h (by simp)

theorem joinProcs_evs_joinish (timeout : Nat) (env : Env) (t0 : Nat)
    (allProcs : List Nat) :
    ∀ rest now acc e,
    e ∈ (joinProcs timeout env t0 allProcs rest now acc).evs →
    joinish e = true := by
  intro rest
  induction rest with
  | nil =>
    intro now acc e he
    simp [joinProcs, JoinOutcome.evs] at he
  | cons p rest ih =>
    intro now acc e he
    simp only [joinProcs] at he
    split at he
    · simp [JoinOutcome.evs] at he
    · split at he
      · simp only [JoinOutcome.evs, List.mem_map] at he
        obtain ⟨i, -, rfl⟩ := he
        rfl
      · rcases hrec : joinProcs timeout env t0 allProcs rest
            (max now (t0 + env.dur p)) (max (env.exitCode p) acc) with
          ⟨n', a', evs'⟩ | ⟨eT, evs'⟩ <;> rw [hrec] at he
        · simp only [JoinOutcome.evs, List.mem_cons] at he
          rcases he with rfl | he
          · rfl
          · exact ih _ _ e (by rw [hrec]; exact he)
        · simp only [JoinOutcome.evs, List.mem_cons] at he
          rcases he with rfl | he
          · rfl
          · exact ih _ _ e (by rw [hrec]; exact he)

theorem joinProcs_time (timeout : Nat) (env : Env) (t0 : Nat)
    (allProcs : List Nat) :
    ∀ rest now acc, now ≤ t0 + timeout →
    (∀ n a evs, joinProcs timeout env t0 allProcs rest now acc = .ok n a evs →
      n ≤ t0 + timeout) ∧
    (∀ eT evs, joinProcs timeout env t0 allProcs rest now acc =
      .timedOut eT evs → eT ≤ t0 + timeout) := by
  intro rest
  induction rest with
  | nil =>
    intro now acc hnow
    constructor
    · intro n a evs h
      simp only [joinProcs, JoinOutcome.ok.injEq] at h
      omega
    · intro eT evs h
      exact absurd h (by simp [joinProcs])
  | cons p rest ih =>
    intro now acc hnow
    constructor
    · intro n a evs h
      simp only [joinProcs] at h
      split at h
      · exact absurd h (by simp)
      · split at h
        · exact absurd h (by simp)
        · rcases hrec : joinProcs timeout env t0 allProcs rest
              (max now (t0 + env.dur p)) (max (env.exitCode p) acc) with
            ⟨n', a', evs'⟩ | ⟨eT', evs'⟩ <;> rw [hrec] at h
          · simp only [JoinOutcome.ok.injEq] at h
            obtain ⟨rfl, -, -⟩ := h
            have hdur : env.dur p ≤ timeout := by omega
            exact (ih _ _ (by omega)).1 _ _ _ hrec
          · exact absurd h (by simp)
    · intro eT evs h
      simp only [joinProcs] at h
      split at h
      · simp only [JoinOutcome.timedOut.injEq] at h
        omega
      · split at h
        · simp only [JoinOutcome.timedOut.injEq] at h
          omega
        · rcases hrec : joinProcs timeout env t0 allProcs rest
              (max now (t0 + env.dur p)) (max (env.exitCode p) acc) with
            ⟨n', a', evs'⟩ | ⟨eT', evs'⟩ <;> rw [hrec] at h
          · exact absurd h (by simp)
          · simp only [JoinOutcome.timedOut.injEq] at h
            obtain ⟨rfl, -⟩ := h
            have hdur : env.dur p ≤ timeout := by omega
            exact (ih _ _ (by omega)).2 _ _ hrec

/-! ### Lemmas about batches -/

theorem batchProcs_length_le (nb : Nat) :
    (batchProcs nb).length ≤ batch_size := by
  unfold batchProcs
  refine le_trans (List.length_filter_le _ _) ?_
  simp

theorem batchProcs_nodup (nb : Nat) : (batchProcs nb).Nodup := by
  unfold batchProcs
  refine List.Nodup.filter _ (List.Nodup.map ?_ (List.nodup_range _))
  intro a b hab
  simp only at hab
  omega

theorem batchProcs_div (nb : Nat) :
    ∀ i ∈ batchProcs nb, i / batch_size = nb := by
  intro i hi
  unfold batchProcs at hi
  simp only [List.mem_filter, List.mem_map, List.mem_range] at hi
  obtain ⟨⟨s, hs, rfl⟩, -⟩ := hi
  show (batch_size * nb + s) / batch_size = nb
  unfold batch_size at *
  omega

theorem runBatches_endTime (timeout : Nat) (env : Env) :
    ∀ bs now acc,
    (runBatchesFrom timeout env bs now acc).endTime ≤
      now + bs.length * timeout := by
  intro bs
  induction bs with
  | nil => intro now acc; simp [runBatchesFrom]
  | cons nb rest ih =>
    intro now acc
    rcases hjoin : joinProcs timeout env now (batchProcs nb) (batchProcs nb)
        now acc with ⟨now', acc', jevs⟩ | ⟨eT, jevs⟩
    · have hnow' : now' ≤ now + timeout :=
        (joinProcs_time timeout env now (batchProcs nb) (batchProcs nb) now acc
          (by omega)).1 _ _ _ hjoin
      have hrec := ih now' acc'
      simp only [runBatchesFrom, hjoin, List.length_cons, Nat.succ_mul]
      omega
    · have heT : eT ≤ now + timeout :=
        (joinProcs_time timeout env now (batchProcs nb) (batchProcs nb) now acc
          (by omega)).2 _ _ hjoin
      simp only [runBatchesFrom, hjoin, List.length_cons, Nat.succ_mul]
      omega

theorem runBatches_ok_shape (timeout : Nat) (env : Env) :
    ∀ bs now acc,
    (runBatchesFrom timeout env bs now acc).timedOut = false →
    (runBatchesFrom timeout env bs now acc).evs =
      (bs.map (fun nb =>
        (batchProcs nb).map Event.spawn ++ (batchProcs nb).map Event.join)).flatten ∧
    (runBatchesFrom timeout env bs now acc).acc =
      (catMap batchProcs bs).foldl (fun x i => max (env.exitCode i) x) acc := by
  intro bs
  induction bs with
  | nil => intro now acc _; simp [runBatchesFrom, catMap]
  | cons nb rest ih =>
    intro now acc hok
    rcases hjoin : joinProcs timeout env now (batchProcs nb) (batchProcs nb)
        now acc with ⟨now', acc', jevs⟩ | ⟨eT, jevs⟩
    · obtain ⟨hevs, hacc⟩ := joinProcs_ok_shape timeout env now
        (batchProcs nb) (batchProcs nb) now acc _ _ _ hjoin
      rw [runBatchesFrom, hjoin] at hok ⊢
      simp only at hok
      obtain ⟨hevs', hacc'⟩ := ih now' acc' hok
      constructor
      · simp [hevs, hevs', List.append_assoc]
      · simp only [catMap, List.foldl_append]
        rw [← hacc]
        exact hacc'
    · rw [runBatchesFrom, hjoin] at hok
      simp at hok

theorem segment_live (nb : Nat) (jevs : List Event)
    (hjoinish : ∀ e ∈ jevs, joinish e = true)
    (p : List Event) (hp : p <+: (batchProcs nb).map Event.spawn ++ jevs) :
    (runLive [] p).length ≤ batch_size ∧ runLive [] p ⊆ batchProcs nb := by
  rcases prefix_append_cases _ _ hp with h1 | ⟨q, hq, rfl⟩
  · obtain ⟨hlen, hsub⟩ := runLive_spawns_prefix (batchProcs nb) [] p h1
    constructor
    · exact le_trans hlen (by simpa using batchProcs_length_le nb)
    · intro a ha
      have h2 := hsub ha
      simpa using h2
  · rw [runLive_append, runLive_spawns_full, List.append_nil]
    obtain ⟨hlen, hsub⟩ := runLive_joinish jevs ((batchProcs nb).reverse) q
      hjoinish hq
    constructor
    · refine le_trans hlen ?_
      simpa using batchProcs_length_le nb
    · intro a ha
      have h2 := hsub ha
      simpa using h2

theorem runBatches_live (timeout : Nat) (env : Env) :
    ∀ bs now acc p, p <+: (runBatchesFrom timeout env bs now acc).evs →
    (runLive [] p).length ≤ batch_size ∧
    ∀ i ∈ runLive [] p, ∀ j ∈ runLive [] p,
      i / batch_size = j / batch_size := by
  intro bs
  induction bs with
  | nil =>
    intro now acc p hp
    obtain ⟨t, ht⟩ := hp
    simp only [runBatchesFrom] at ht
    obtain ⟨rfl, -⟩ := List.append_eq_nil.mp ht
    constructor
    · simp [runLive, batch_size]
    · simp [runLive]
  | cons nb rest ih =>
    intro now acc p hp
    rcases hjoin : joinProcs timeout env now (batchProcs nb) (batchProcs nb)
        now acc with ⟨now', acc', jevs⟩ | ⟨eT, jevs⟩
    · rw [runBatchesFrom, hjoin] at hp
      simp only at hp
      rw [← List.append_assoc] at hp
      have hjoinish : ∀ e ∈ jevs, joinish e = true := by
        intro e he
        exact joinProcs_evs_joinish timeout env now (batchProcs nb)
          (batchProcs nb) now acc e (by rw [hjoin]; exact he)
      rcases prefix_append_cases _ _ hp with h1 | ⟨q, hq, rfl⟩
      · obtain ⟨hlen, hsub⟩ := segment_live nb jevs hjoinish p h1
        refine ⟨hlen, ?_⟩
        intro i hi j hj
        rw [batchProcs_div nb i (hsub hi), batchProcs_div nb j (hsub hj)]
      · obtain ⟨hevs, -⟩ := joinProcs_ok_shape timeout env now (batchProcs nb)
          (batchProcs nb) now acc _ _ _ hjoin
        rw [runLive_append, runLive_append, runLive_spawns_full,
          List.append_nil, hevs,
          runLive_joins_full _ (batchProcs_nodup nb)]
        exact ih now' acc' q hq
    · rw [runBatchesFrom, hjoin] at hp
      simp only at hp
      have hjoinish : ∀ e ∈ jevs, joinish e = true := by
        intro e he
        exact joinProcs_evs_joinish timeout env now (batchProcs nb)
          (batchProcs nb) now acc e (by rw [hjoin]; exact he)
      obtain ⟨hlen, hsub⟩ := segment_live nb jevs hjoinish p hp
      refine ⟨hlen, ?_⟩
      intro i hi j hj
      rw [batchProcs_div nb i (hsub hi), batchProcs_div nb j (hsub hj)]

/-! ### Concrete workers, submissions, environments for witnesses and
counterexamples -/

/-- An empty filesystem state. -/
def fs0 : FS := ⟨[], fun _ => none⟩

/-- A worker that has been set up and is ready to launch. -/
def w0 : Worker := ⟨"sub", WStatus.setup, 0, ""⟩

/-- A non-empty C++ submission. -/
def subCpp : Submission := ⟨some "int main returning zero 00", none⟩

/-- A submission with both source files present and blank. -/
def sub5 : Submission := ⟨some "", some ""⟩

/-- A submission with a single, blank, source file. -/
def sub5b : Submission := ⟨some "", none⟩

/-- Environment where everything succeeds and every test case takes 1 time
unit. -/
def envOk : Env := ⟨0, "", fun _ => 1, fun _ => 0, fun _ => "", "", 0, ""⟩

/-- Environment where every test case takes 9 time units and succeeds. -/
def envC1 : Env := ⟨0, "", fun _ => 9, fun _ => 0, fun _ => "", "", 0, ""⟩

/-- Environment where test case 0 exits with code 7 and the others
succeed. -/
def envC2 : Env :=
  ⟨0, "", fun _ => 1, fun i => if i = 0 then 7 else 0, fun _ => "", "", 0, ""⟩

/-- Environment where test case 0 takes exactly 10 time units and the others
take 1. -/
def envC3 : Env :=
  ⟨0, "", fun i => if i = 0 then 10 else 1, fun _ => 0, fun _ => "", "", 0, ""⟩

/-- Environment whose compiler fails with a diagnostic. -/
def envC4 : Env :=
  ⟨1, "gcc: error: expected semicolon", fun _ => 1, fun _ => 0, fun _ => "",
    "", 0, ""⟩

/-- Environment whose compiler fails and whose captured output is exactly the
isolation-layer memory marker. -/
def envC4b : Env :=
  ⟨1, "sh: 1: pause: not found", fun _ => 1, fun _ => 0, fun _ => "", "", 0, ""⟩

/-- The full batched-execution trace of a run in which all 10 test cases
finish in time. -/
def evs10 : List Event :=
  [Event.spawn 0, Event.spawn 1, Event.spawn 2, Event.spawn 3, Event.spawn 4,
   Event.join 0, Event.join 1, Event.join 2, Event.join 3, Event.join 4,
   Event.spawn 5, Event.spawn 6, Event.spawn 7, Event.spawn 8, Event.spawn 9,
   Event.join 5, Event.join 6, Event.join 7, Event.join 8, Event.join 9]

/-- The first five events of a batched execution: batch 0 spawns five
processes. -/
def evs5 : List Event :=
  [Event.spawn 0, Event.spawn 1, Event.spawn 2, Event.spawn 3, Event.spawn 4]

/-! ### Claim C1 -/

/-- Claim C1 (amended): the wall-clock budget of the batched execution is per
batch, not global — `t0` is re-sampled at the start of every batch, so each
test-case process is allowed to run until `t0_batch + timeout`, and the total
wall-clock time of the whole execution is only bounded by
`n_batches * timeout`, not by `timeout`. -/
theorem C1_shared_budget (timeout : Nat) (env : Env) (sub : Submission)
    (w : Worker) (fs : FS) (w' : Worker) (fs' : FS) (evs : List Event)
    (tEnd : Nat)
    (hlaunch : launch_submission timeout env sub w fs =
      .ok (w', fs', evs, tEnd)) :
    tEnd ≤ n_batches * timeout := by
  have hend := runBatches_endTime timeout env (List.range n_batches) 0 0
  simp only [List.length_range, Nat.zero_add] at hend
  rw [launch_submission] at hlaunch
  split at hlaunch
  · exact absurd hlaunch (by simp)
  · split at hlaunch
    · simp only [Except.ok.injEq, Prod.mk.injEq] at hlaunch
      omega
    · split at hlaunch
      · simp only [Except.ok.injEq, Prod.mk.injEq] at hlaunch
        omega
      · rw [afterBatches] at hlaunch
        split at hlaunch
        · simp only [Except.ok.injEq, Prod.mk.injEq] at hlaunch
          omega
        · split at hlaunch
          · simp only [Except.ok.injEq, Prod.mk.injEq] at hlaunch
            omega
          · split at hlaunch
            · simp only [Except.ok.injEq, Prod.mk.injEq] at hlaunch
              omega
            · simp only [Except.ok.injEq, Prod.mk.injEq] at hlaunch
              omega

/-- Claim C1, witness: a concrete successful launch whose final clock value is
within `n_batches * timeout`. -/
theorem C1_shared_budget_witness : (2 : Nat) ≤ n_batches * 5 :=
  C1_shared_budget 5 envOk subCpp w0 fs0
    ⟨"sub", WStatus.finished, 0, ""⟩
    ⟨[(0, ""), (1, ""), (2, ""), (3, ""), (4, ""), (5, ""), (6, ""), (7, ""),
      (8, ""), (9, "")], fs0.predictions⟩
    (Event.compile :: (evs10 ++ [Event.judge])) 2 (by rfl)

/-- Claim C1, counterexample: with `timeout = 10` and every test case taking
9 units, both non-empty batches fit their own per-batch deadline, no timeout
is raised, and the execution ends at clock 18 — the total wall-clock time
exceeds the configured timeout, refuting the claimed single global budget
`launch_time + total_timeout`. -/
theorem C1_shared_budget_cx :
    (runBatchesFrom 10 envC1 (List.range n_batches) 0 0).timedOut = false ∧
    (runBatchesFrom 10 envC1 (List.range n_batches) 0 0).endTime = 18 ∧
    ¬((runBatchesFrom 10 envC1 (List.range n_batches) 0 0).endTime ≤ 10) := by
  refine ⟨by decide, by decide, by decide⟩

/-! ### Claim C7 -/

/-- Claim C7 (amended): test cases run in fixed-size sequential batches, but
the batch size is hardcoded to 5 (not a configured `batch_size`, and not 4):
at every prefix of the batched-execution trace at most 5 sandboxed processes
are live simultaneously, and all live processes belong to the same batch
(their indices agree after division by the batch size) — in particular batch
N+1 never starts before every process of batch N has been joined or
killed. -/
theorem C7_batching (timeout : Nat) (env : Env) (p : List Event)
    (hp : p <+: (runBatchesFrom timeout env (List.range n_batches) 0 0).evs) :
    (runLive [] p).length ≤ batch_size ∧
    ∀ i ∈ runLive [] p, ∀ j ∈ runLive [] p,
      i / batch_size = j / batch_size :=
  runBatches_live timeout env (List.range n_batches) 0 0 p hp

/-- Claim C7, witness: the full trace of a run of all 10 test cases satisfies
the live-process bound. -/
theorem C7_batching_witness :
    (runLive [] evs10).length ≤ batch_size ∧
    ∀ i ∈ runLive [] evs10, ∀ j ∈ runLive [] evs10,
      i / batch_size = j / batch_size :=
  C7_batching 5 envOk evs10 ⟨[], by decide⟩

/-- Claim C7, counterexample: right after batch 0 is spawned, 5 sandboxed
processes are live at once, refuting the claimed bound of 4 concurrent
processes. -/
theorem C7_batching_cx :
    evs5 <+: (runBatchesFrom 100 envOk (List.range n_batches) 0 0).evs ∧
    (runLive [] evs5).length = 5 ∧ ¬((runLive [] evs5).length ≤ 4) := by
  refine ⟨⟨evs10.drop 5, by decide⟩, by decide, by decide⟩

/-! ### Claim C2 -/

/-- Claim C2 (amended): when the batched execution finishes without timeout,
the aggregated exit code equals the maximum non-negative exit code observed
across all 10 test-case processes (`aggCode`, 0 when all passed); however a
positive exit code does NOT short-circuit the remaining batches — every one of
the 10 test cases is spawned regardless of earlier codes, because the
`_return_code > 0` early return sits after the whole batch loop.  A positive
aggregate only skips the judge invocation; a zero aggregate reaches the judge
and the final code is 0 or `SCORING_ERROR`. -/
theorem C2_aggregate (timeout : Nat) (env : Env) (sub : Submission)
    (w : Worker) (fs : FS) (w' : Worker) (fs' : FS) (evs : List Event)
    (tEnd : Nat)
    (hlaunch : launch_submission timeout env sub w fs =
      .ok (w', fs', evs, tEnd))
    (hfin : w'.status = WStatus.finished)
    (hne : is_empty_submission sub = false)
    (hcomp : env.compileExit = 0) :
    spawnedIdxs evs = List.range 10 ∧
    (0 < aggCode env evs →
      w'.returnCode = aggCode env evs ∧ Event.judge ∉ evs) ∧
    (aggCode env evs = 0 →
      Event.judge ∈ evs ∧
      (w'.returnCode = 0 ∨ w'.returnCode = SCORING_ERROR)) := by
  by_cases hrun : w.status = WStatus.running
  · rw [launch_submission, if_pos hrun] at hlaunch
    exact absurd hlaunch (by simp)
  rw [launch_submission, if_neg hrun, if_neg (by simp [hne]),
    if_neg (by simp [hcomp])] at hlaunch
  rcases hto : (runBatchesFrom timeout env (List.range n_batches) 0 0).timedOut
  case neg.true =>
    rw [afterBatches, if_pos hto] at hlaunch
    simp only [Except.ok.injEq, Prod.mk.injEq] at hlaunch
    obtain ⟨hw, -, -, -⟩ := hlaunch
    rw [← hw] at hfin
    simp at hfin
  case neg.false =>
    obtain ⟨hevs, hacc⟩ :=
      runBatches_ok_shape timeout env (List.range n_batches) 0 0 hto
    have hcat : catMap batchProcs (List.range n_batches) = List.range 10 := by
      decide
    rw [hcat] at hacc
    rw [afterBatches, if_neg (by simp [hto])] at hlaunch
    by_cases hpos : 0 < (runBatchesFrom timeout env (List.range n_batches) 0 0).acc
    · rw [if_pos hpos] at hlaunch
      simp only [Except.ok.injEq, Prod.mk.injEq] at hlaunch
      obtain ⟨hw, -, hevseq, -⟩ := hlaunch
      have hagg : aggCode env evs =
          (runBatchesFrom timeout env (List.range n_batches) 0 0).acc := by
        rw [← hevseq, hevs, hacc, aggCode]
        congr 1
      refine ⟨?_, ?_, ?_⟩
      · rw [← hevseq, hevs]; decide
      · intro _
        constructor
        · rw [← hw, hagg]
        · rw [← hevseq, hevs]; decide
      · intro hzero
        rw [hagg] at hzero
        omega
    · rw [if_neg hpos] at hlaunch
      have hagg0 : ∀ evs2 : List Event,
          evs2 = Event.compile ::
            ((runBatchesFrom timeout env (List.range n_batches) 0 0).evs ++
              [Event.judge]) →
          aggCode env evs2 =
            (runBatchesFrom timeout env (List.range n_batches) 0 0).acc := by
        intro evs2 h2
        rw [h2, hevs, hacc, aggCode]
        congr 1
      by_cases hj : env.judgeExit ≠ 0
      · rw [if_pos hj] at hlaunch
        simp only [Except.ok.injEq, Prod.mk.injEq] at hlaunch
        obtain ⟨hw, -, hevseq, -⟩ := hlaunch
        have hagg := hagg0 evs (by rw [← hevseq, hevs])
        refine ⟨?_, ?_, ?_⟩
        · rw [← hevseq, hevs]; decide
        · intro hgt
          rw [hagg] at hgt
          exact absurd hgt hpos
        · intro _
          constructor
          · rw [← hevseq, hevs]; decide
          · right
            rw [← hw]
      · rw [if_neg hj] at hlaunch
        simp only [Except.ok.injEq, Prod.mk.injEq] at hlaunch
        obtain ⟨hw, -, hevseq, -⟩ := hlaunch
        have hagg := hagg0 evs (by rw [← hevseq, hevs])
        refine ⟨?_, ?_, ?_⟩
        · rw [← hevseq, hevs]; decide
        · intro hgt
          rw [hagg] at hgt
          exact absurd hgt hpos
        · intro hzero
          constructor
          · rw [← hevseq, hevs]; decide
          · left
            rw [← hw, ← hagg, hzero]

/-- Claim C2, witness: a concrete run in which all 10 test cases pass, the
aggregate is 0 and the judge runs. -/
theorem C2_aggregate_witness :
    spawnedIdxs (Event.compile :: (evs10 ++ [Event.judge])) = List.range 10 ∧
    (0 < aggCode envOk (Event.compile :: (evs10 ++ [Event.judge])) →
      (⟨"sub", WStatus.finished, 0, ""⟩ : Worker).returnCode =
        aggCode envOk (Event.compile :: (evs10 ++ [Event.judge])) ∧
      Event.judge ∉ Event.compile :: (evs10 ++ [Event.judge])) ∧
    (aggCode envOk (Event.compile :: (evs10 ++ [Event.judge])) = 0 →
      Event.judge ∈ Event.compile :: (evs10 ++ [Event.judge]) ∧
      ((⟨"sub", WStatus.finished, 0, ""⟩ : Worker).returnCode = 0 ∨
        (⟨"sub", WStatus.finished, 0, ""⟩ : Worker).returnCode =
          SCORING_ERROR)) :=
  C2_aggregate 5 envOk subCpp w0 fs0 ⟨"sub", WStatus.finished, 0, ""⟩
    ⟨[(0, ""), (1, ""), (2, ""), (3, ""), (4, ""), (5, ""), (6, ""), (7, ""),
      (8, ""), (9, "")], fs0.predictions⟩
    (Event.compile :: (evs10 ++ [Event.judge])) 2 (by rfl) rfl rfl rfl

/-- Claim C2, counterexample: test case 0 exits with positive code 7 (joined
as the 6th event), yet the later batch is still launched — `Event.spawn 5`
appears afterwards — refuting the claimed short-circuit of remaining
batches. -/
theorem C2_aggregate_cx :
    (launchWorker (launch_submission 100 envC2 subCpp w0 fs0)).status =
      WStatus.finished ∧
    (launchWorker (launch_submission 100 envC2 subCpp w0 fs0)).returnCode = 7 ∧
    0 < envC2.exitCode 0 ∧
    Event.join 0 ∈
      (launchEvents (launch_submission 100 envC2 subCpp w0 fs0)).take 7 ∧
    Event.spawn 5 ∈
      (launchEvents (launch_submission 100 envC2 subCpp w0 fs0)).drop 7 := by
  refine ⟨by rfl, by rfl, by decide, by decide, by decide⟩

/-! ### Evaluation of collect_results on a finished worker -/

theorem collect_finished (timeout : Nat) (w : Worker) (fs : FS)
    (hfin : w.status = WStatus.finished) :
    collect_results timeout w fs =
      .ok ({ w with status := WStatus.collected }, pushPreds w fs,
        some (w.returnCode,
          if w.returnCode ≠ 0 then
            pyReplace
              (if w.returnCode = 139 then "Segmentation fault (core dumped)"
               else if w.returnCode = EMPTY_SUBMISSION then
                 "Error: empty submission code."
               else get_traceback w.log) oomMarker oomMessage
          else get_traceback w.log)) := by
  rw [collect_results, if_neg (by rw [hfin]; simp),
    if_neg (by rw [hfin]; simp), if_pos (by rw [hfin]; simp)]
  simp [hfin]

/-! ### Claim C3 -/

/-- A launch that ends with status `timeout` always carries return code
124. -/
theorem launch_timeout_code (timeout : Nat) (env : Env) (sub : Submission)
    (w : Worker) (fs : FS) (w' : Worker) (fs' : FS) (evs : List Event)
    (tEnd : Nat)
    (hlaunch : launch_submission timeout env sub w fs =
      .ok (w', fs', evs, tEnd))
    (hto : w'.status = WStatus.timeout) :
    w'.returnCode = 124 := by
  by_cases hrun : w.status = WStatus.running
  · rw [launch_submission, if_pos hrun] at hlaunch
    exact absurd hlaunch (by simp)
  rw [launch_submission, if_neg hrun] at hlaunch
  split at hlaunch
  · simp only [Except.ok.injEq, Prod.mk.injEq] at hlaunch
    obtain ⟨hw, -, -, -⟩ := hlaunch
    rw [← hw] at hto
    simp at hto
  · split at hlaunch
    · simp only [Except.ok.injEq, Prod.mk.injEq] at hlaunch
      obtain ⟨hw, -, -, -⟩ := hlaunch
      rw [← hw] at hto
      simp at hto
    · rw [afterBatches] at hlaunch
      split at hlaunch
      · simp only [Except.ok.injEq, Prod.mk.injEq] at hlaunch
        obtain ⟨hw, -, -, -⟩ := hlaunch
        rw [← hw]
      · split at hlaunch
        · simp only [Except.ok.injEq, Prod.mk.injEq] at hlaunch
          obtain ⟨hw, -, -, -⟩ := hlaunch
          rw [← hw] at hto
          simp at hto
        · split at hlaunch
          · simp only [Except.ok.injEq, Prod.mk.injEq] at hlaunch
            obtain ⟨hw, -, -, -⟩ := hlaunch
            rw [← hw] at hto
            simp at hto
          · simp only [Except.ok.injEq, Prod.mk.injEq] at hlaunch
            obtain ⟨hw, -, -, -⟩ := hlaunch
            rw [← hw] at hto
            simp at hto

/-- Claim C3 (amended): timeout is irreversible and uniform at collection —
a launch that ends with status `timeout` has return code 124, and collecting
it always returns exit code 124 with status `collected` (never back to
`running`).  However, on the `dt == 0` path the worker gives up without
killing the still-live processes of the current batch (see the
counterexample); only the `TimeoutExpired` path kills the whole batch. -/
theorem C3_timeout_irreversible (timeout : Nat) (env : Env) (sub : Submission)
    (w : Worker) (fs : FS) (w' : Worker) (fs' : FS) (evs : List Event)
    (tEnd : Nat)
    (hlaunch : launch_submission timeout env sub w fs =
      .ok (w', fs', evs, tEnd))
    (hto : w'.status = WStatus.timeout) :
    w'.returnCode = 124 ∧
    ∃ m, collect_results timeout w' fs' =
      .ok ({ w' with status := WStatus.collected }, pushPreds w' fs',
        some (124, m)) := by
  refine ⟨launch_timeout_code timeout env sub w fs w' fs' evs tEnd hlaunch hto,
    ?_⟩
  refine ⟨pyReplace
    (get_traceback w'.log ++ "\nWorker killed due to timeout after " ++
      toString timeout ++ "s.") oomMarker oomMessage, ?_⟩
  rw [collect_results, if_neg (by rw [hto]; simp),
    if_neg (by rw [hto]; simp), if_pos (by rw [hto]; simp)]
  simp [hto, EMPTY_SUBMISSION]

/-- Claim C3, witness: a concrete timed-out launch (test case 0 consumes the
whole batch budget) collected with exit code 124. -/
theorem C3_timeout_irreversible_witness :
    (⟨"sub", WStatus.timeout, 124, ""⟩ : Worker).returnCode = 124 ∧
    ∃ m, collect_results 10 ⟨"sub", WStatus.timeout, 124, ""⟩
        ⟨[(0, ""), (1, ""), (2, ""), (3, ""), (4, "")], fs0.predictions⟩ =
      .ok ({ (⟨"sub", WStatus.timeout, 124, ""⟩ : Worker) with
              status := WStatus.collected },
        pushPreds ⟨"sub", WStatus.timeout, 124, ""⟩
          ⟨[(0, ""), (1, ""), (2, ""), (3, ""), (4, "")], fs0.predictions⟩,
        some (124, m)) :=
  C3_timeout_irreversible 10 envC3 subCpp w0 fs0
    ⟨"sub", WStatus.timeout, 124, ""⟩
    ⟨[(0, ""), (1, ""), (2, ""), (3, ""), (4, "")], fs0.predictions⟩
    [Event.compile, Event.spawn 0, Event.spawn 1, Event.spawn 2,
      Event.spawn 3, Event.spawn 4, Event.join 0] 10 (by rfl) rfl

/-- Claim C3, counterexample: with `timeout = 10`, test case 0 finishes
exactly at the batch deadline; when the worker turns to test case 1 the
remaining budget `dt` is 0, so it transitions to `timeout` and returns —
process 1 was spawned but is neither joined nor killed, refuting the claim
that every live process of the current batch is killed on timeout. -/
theorem C3_timeout_irreversible_cx :
    (launchWorker (launch_submission 10 envC3 subCpp w0 fs0)).status =
      WStatus.timeout ∧
    Event.spawn 1 ∈ launchEvents (launch_submission 10 envC3 subCpp w0 fs0) ∧
    Event.join 1 ∉ launchEvents (launch_submission 10 envC3 subCpp w0 fs0) ∧
    Event.kill 1 ∉ launchEvents (launch_submission 10 envC3 subCpp w0 fs0) := by
  refine ⟨by rfl, by decide, by decide, by decide⟩

/-! ### Claim C4 -/

/-- Claim C4 (amended): a submission whose compilation fails yields exit code
1220 (`COMPILATION_ERROR`), no test-case process is spawned, the judge is
never invoked, and the filesystem (in particular `training_output`) is left
untouched; the collected message is the captured compiler stderr/stdout with
every occurrence of the isolation-layer memory marker replaced by the fixed
out-of-memory text (not the verbatim compiler output — see the
counterexample). -/
theorem C4_compile_error (timeout : Nat) (env : Env) (sub : Submission)
    (w : Worker) (fs : FS)
    (hrun : w.status ≠ WStatus.running)
    (hne : is_empty_submission sub = false)
    (hcomp : env.compileExit ≠ 0) :
    launch_submission timeout env sub w fs =
      .ok ({ w with
              status := WStatus.finished, returnCode := COMPILATION_ERROR,
              log := env.compileOutput }, fs, [Event.compile], 0) ∧
    (∀ i, Event.spawn i ∉ [Event.compile]) ∧
    Event.judge ∉ [Event.compile] ∧
    collect_results timeout
      { w with
          status := WStatus.finished, returnCode := COMPILATION_ERROR,
          log := env.compileOutput } fs =
      .ok ({ w with
              status := WStatus.collected, returnCode := COMPILATION_ERROR,
              log := env.compileOutput },
        pushPreds { w with
          status := WStatus.finished, returnCode := COMPILATION_ERROR,
          log := env.compileOutput } fs,
        some (COMPILATION_ERROR,
          pyReplace (get_traceback env.compileOutput) oomMarker oomMessage)) := by
  refine ⟨?_, by simp, by simp, ?_⟩
  · rw [launch_submission, if_neg hrun, if_neg (by simp [hne]), if_pos hcomp]
  · rw [collect_finished _ _ _ (by simp)]
    simp [COMPILATION_ERROR, EMPTY_SUBMISSION]

/-- Claim C4, witness: a concrete compilation failure. -/
theorem C4_compile_error_witness :
    launch_submission 5 envC4 subCpp w0 fs0 =
      .ok ({ w0 with
              status := WStatus.finished, returnCode := COMPILATION_ERROR,
              log := envC4.compileOutput }, fs0, [Event.compile], 0) ∧
    (∀ i, Event.spawn i ∉ [Event.compile]) ∧
    Event.judge ∉ [Event.compile] ∧
    collect_results 5
      { w0 with
          status := WStatus.finished, returnCode := COMPILATION_ERROR,
          log := envC4.compileOutput } fs0 =
      .ok ({ w0 with
              status := WStatus.collected, returnCode := COMPILATION_ERROR,
              log := envC4.compileOutput },
        pushPreds { w0 with
          status := WStatus.finished, returnCode := COMPILATION_ERROR,
          log := envC4.compileOutput } fs0,
        some (COMPILATION_ERROR,
          pyReplace (get_traceback envC4.compileOutput) oomMarker
            oomMessage)) :=
  C4_compile_error 5 envC4 subCpp w0 fs0 (by decide) rfl (by decide)

/-- Claim C4, counterexample: when the captured compiler output is exactly the
isolation-layer memory marker, the collected message is the fixed
out-of-memory text, not the compiler output — refuting message equality with
the captured compiler stderr/stdout. -/
theorem C4_compile_error_cx :
    launch_submission 5 envC4b subCpp w0 fs0 =
      .ok (⟨"sub", WStatus.finished, 1220, oomMarker⟩, fs0,
        [Event.compile], 0) ∧
    collect_results 5 ⟨"sub", WStatus.finished, 1220, oomMarker⟩ fs0 =
      .ok (⟨"sub", WStatus.collected, 1220, oomMarker⟩,
        pushPreds ⟨"sub", WStatus.finished, 1220, oomMarker⟩ fs0,
        some (1220, oomMessage)) ∧
    oomMessage ≠ envC4b.compileOutput := by
  refine ⟨by rfl, by rfl, by decide⟩

/-! ### Claim C5 -/

/-- Claim C5 (amended): only a submission in which BOTH `solution.cpp` and
`Main.java` exist with stripped length below 3 is treated as empty; such a
submission yields exit code 1223 (`EMPTY_SUBMISSION`) and returns before the
compile step (the trace is empty, so no compiler toolchain is invoked).  A
blank single-file submission is NOT treated as empty and reaches the compiler
(see the counterexample). -/
theorem C5_empty_submission (timeout : Nat) (env : Env) (sub : Submission)
    (w : Worker) (fs : FS)
    (hrun : w.status ≠ WStatus.running)
    (hemp : is_empty_submission sub = true) :
    launch_submission timeout env sub w fs =
      .ok ({ w with
              status := WStatus.finished, returnCode := EMPTY_SUBMISSION,
              log := "" }, fs, [], 0) ∧
    Event.compile ∉ ([] : List Event) := by
  refine ⟨?_, by simp⟩
  rw [launch_submission, if_neg hrun, if_pos hemp]

/-- Claim C5, witness: a submission with both source files blank is rejected
with 1223 before compiling. -/
theorem C5_empty_submission_witness :
    launch_submission 9 envOk sub5 w0 fs0 =
      .ok ({ w0 with
              status := WStatus.finished, returnCode := EMPTY_SUBMISSION,
              log := "" }, fs0, [], 0) ∧
    Event.compile ∉ ([] : List Event) :=
  C5_empty_submission 9 envOk sub5 w0 fs0 (by decide) (by rfl)

/-- Claim C5, counterexample: a submission consisting of a single blank
`solution.cpp` (no `Main.java`) — its submitted source code is empty, yet
`is_empty_submission` is false, the compiler IS invoked, and the exit code is
not 1223. -/
theorem C5_empty_submission_cx :
    sub5b.solutionCpp = some "" ∧ sub5b.mainJava = none ∧
    is_empty_submission sub5b = false ∧
    Event.compile ∈ launchEvents (launch_submission 5 envOk sub5b w0 fs0) ∧
    (launchWorker (launch_submission 5 envOk sub5b w0 fs0)).returnCode ≠
      EMPTY_SUBMISSION := by
  refine ⟨by rfl, by rfl, by rfl, by decide, by decide⟩

/-! ### Claim C6 -/

/-- Claim C6 (amended): at collection on a finished worker, exit code 139
always yields the fixed message "Segmentation fault (core dumped)" —
regardless of the log, and in particular even when the log contains the
isolation-layer memory marker (see the counterexample); for any other
non-zero exit code other than 1223, the returned message is the log-derived
message with every occurrence of the marker replaced by the fixed
out-of-memory text (surrounding text is preserved, and with exit code 0 no
replacement happens at all). -/
theorem C6_collect_messages (timeout : Nat) (w : Worker) (fs : FS)
    (hfin : w.status = WStatus.finished) :
    (w.returnCode = 139 →
      collect_results timeout w fs =
        .ok ({ w with status := WStatus.collected }, pushPreds w fs,
          some (139, "Segmentation fault (core dumped)"))) ∧
    (w.returnCode ≠ 0 → w.returnCode ≠ 139 → w.returnCode ≠ EMPTY_SUBMISSION →
      collect_results timeout w fs =
        .ok ({ w with status := WStatus.collected }, pushPreds w fs,
          some (w.returnCode,
            pyReplace (get_traceback w.log) oomMarker oomMessage))) ∧
    (w.returnCode = 0 →
      collect_results timeout w fs =
        .ok ({ w with status := WStatus.collected }, pushPreds w fs,
          some (0, get_traceback w.log))) := by
  have hseg : pyReplace "Segmentation fault (core dumped)" oomMarker
      oomMessage = "Segmentation fault (core dumped)" := by decide
  rw [collect_finished timeout w fs hfin]
  refine ⟨?_, ?_, ?_⟩
  · intro h139
    rw [h139]
    simp [hseg]
  · intro hne0 hne139 hne1223
    rw [if_pos hne0, if_neg hne139, if_neg hne1223]
  · intro h0
    rw [h0]
    simp

/-- Claim C6, witness: the 139 branch with a marker-free log, and the generic
branch with a log whose marker is replaced in place. -/
theorem C6_collect_messages_witness :
    ((⟨"s6", WStatus.finished, 139, "raw log"⟩ : Worker).returnCode = 139 →
      collect_results 5 ⟨"s6", WStatus.finished, 139, "raw log"⟩ fs0 =
        .ok ({ (⟨"s6", WStatus.finished, 139, "raw log"⟩ : Worker) with
                status := WStatus.collected },
          pushPreds ⟨"s6", WStatus.finished, 139, "raw log"⟩ fs0,
          some (139, "Segmentation fault (core dumped)"))) ∧
    ((⟨"s6", WStatus.finished, 2, "x sh: 1: pause: not found"⟩ : Worker).returnCode ≠ 0 →
      (⟨"s6", WStatus.finished, 2, "x sh: 1: pause: not found"⟩ : Worker).returnCode ≠ 139 →
      (⟨"s6", WStatus.finished, 2, "x sh: 1: pause: not found"⟩ : Worker).returnCode ≠ EMPTY_SUBMISSION →
      collect_results 5 ⟨"s6", WStatus.finished, 2, "x sh: 1: pause: not found"⟩ fs0 =
        .ok ({ (⟨"s6", WStatus.finished, 2, "x sh: 1: pause: not found"⟩ : Worker) with
                status := WStatus.collected },
          pushPreds ⟨"s6", WStatus.finished, 2, "x sh: 1: pause: not found"⟩ fs0,
          some ((⟨"s6", WStatus.finished, 2, "x sh: 1: pause: not found"⟩ : Worker).returnCode,
            pyReplace
              (get_traceback
                (⟨"s6", WStatus.finished, 2, "x sh: 1: pause: not found"⟩ : Worker).log)
              oomMarker oomMessage))) :=
  ⟨(C6_collect_messages 5 ⟨"s6", WStatus.finished, 139, "raw log"⟩ fs0 rfl).1,
   (C6_collect_messages 5
      ⟨"s6", WStatus.finished, 2, "x sh: 1: pause: not found"⟩ fs0 rfl).2.1⟩

/-- Claim C6, counterexample: a finished worker with exit code 139 whose log
IS the memory marker — the returned message is the segmentation-fault string,
not the fixed out-of-memory message, refuting the claim that a marker in the
log always yields the out-of-memory message. -/
theorem C6_collect_messages_cx :
    collect_results 5 ⟨"s6", WStatus.finished, 139, oomMarker⟩ fs0 =
      .ok (⟨"s6", WStatus.collected, 139, oomMarker⟩,
        pushPreds ⟨"s6", WStatus.finished, 139, oomMarker⟩ fs0,
        some (139, "Segmentation fault (core dumped)")) ∧
    ("Segmentation fault (core dumped)" : String) ≠ oomMessage := by
  refine ⟨by rfl, by decide⟩

/-! ### Claim C8 -/

/-- Claim C8 (confirmed): collecting a successfully finished submission
(exit code 0) copies its `training_output` directory verbatim into the
predictions directory of that submission — after discarding any prior copy
(`rmtree` then `copytree`, so the result equals `training_output` exactly,
never merged) — while every other submission predictions directory is left
unchanged. -/
theorem C8_predictions_roundtrip (timeout : Nat) (w : Worker) (fs : FS)
    (hfin : w.status = WStatus.finished) (hzero : w.returnCode = 0) :
    collect_results timeout w fs =
      .ok ({ w with status := WStatus.collected }, pushPreds w fs,
        some (0, get_traceback w.log)) ∧
    (pushPreds w fs).predictions w.submission = some fs.trainingOutput ∧
    ∀ n, n ≠ w.submission →
      (pushPreds w fs).predictions n = fs.predictions n := by
  refine ⟨?_, ?_, ?_⟩
  · rw [collect_finished timeout w fs hfin, hzero]
    simp
  · simp [pushPreds]
  · intro n hn
    simp [pushPreds, hn]

/-- Claim C8, witness: a concrete successful collection, with a pre-existing
predictions directory for the same submission that is overwritten and an
unrelated submission that is untouched. -/
theorem C8_predictions_roundtrip_witness :
    collect_results 5 ⟨"s8", WStatus.finished, 0, "run log"⟩
        ⟨[(0, "out0"), (1, "out1")],
          fun n => if n = "s8" then some [(0, "old")] else none⟩ =
      .ok ({ (⟨"s8", WStatus.finished, 0, "run log"⟩ : Worker) with
              status := WStatus.collected },
        pushPreds ⟨"s8", WStatus.finished, 0, "run log"⟩
          ⟨[(0, "out0"), (1, "out1")],
            fun n => if n = "s8" then some [(0, "old")] else none⟩,
        some (0, get_traceback "run log")) ∧
    (pushPreds ⟨"s8", WStatus.finished, 0, "run log"⟩
        ⟨[(0, "out0"), (1, "out1")],
          fun n => if n = "s8" then some [(0, "old")] else none⟩).predictions
      "s8" = some [(0, "out0"), (1, "out1")] ∧
    ∀ n, n ≠ "s8" →
      (pushPreds ⟨"s8", WStatus.finished, 0, "run log"⟩
          ⟨[(0, "out0"), (1, "out1")],
            fun n => if n = "s8" then some [(0, "old")] else none⟩).predictions
        n =
      (if n = "s8" then some [(0, "old")] else none) :=
  C8_predictions_roundtrip 5 ⟨"s8", WStatus.finished, 0, "run log"⟩
    ⟨[(0, "out0"), (1, "out1")],
      fun n => if n = "s8" then some [(0, "old")] else none⟩ rfl rfl

/-! ### Claim C9 -/

/-- Claim C9 (amended): calling `collect_results` before setup/launch (status
`initialized` or `setup`) raises immediately; but a second invocation after a
successful collection (status `collected`) is NOT rejected — no branch
applies, so the call silently returns `None` without raising, without
performing a second collection, and without touching worker state or the
predictions directories. -/
theorem C9_collect_once (timeout : Nat) (w : Worker) (fs : FS) :
    (w.status = WStatus.initialized ∨ w.status = WStatus.setup →
      ∃ e, collect_results timeout w fs = .error e) ∧
    (w.status = WStatus.collected →
      collect_results timeout w fs = .ok (w, fs, none)) := by
  constructor
  · rintro (h | h)
    · exact ⟨"The worker has not been setup and no submission was launched.",
        by rw [collect_results, if_pos h]⟩
    · refine ⟨"No submission was launched.", ?_⟩
      rw [collect_results, if_neg (by rw [h]; simp), if_pos h]
  · intro h
    rw [collect_results, if_neg (by rw [h]; simp), if_neg (by rw [h]; simp),
      if_neg (by rw [h]; simp)]

/-- Claim C9, witness: a not-yet-launched worker is rejected with an error,
and an already-collected worker is not. -/
theorem C9_collect_once_witness :
    (∃ e, collect_results 5 ⟨"sub", WStatus.initialized, 0, ""⟩ fs0 =
      .error e) ∧
    collect_results 5 ⟨"sub", WStatus.collected, 0, ""⟩ fs0 =
      .ok (⟨"sub", WStatus.collected, 0, ""⟩, fs0, none) :=
  ⟨(C9_collect_once 5 ⟨"sub", WStatus.initialized, 0, ""⟩ fs0).1 (Or.inl rfl),
   (C9_collect_once 5 ⟨"sub", WStatus.collected, 0, ""⟩ fs0).2 rfl⟩

/-- Claim C9, counterexample: a second `collect_results` on an
already-collected worker is not rejected as caller misuse — it returns
successfully with no `(exit_code, message)` pair and no state change. -/
theorem C9_collect_once_cx :
    collect_results 7 ⟨"done", WStatus.collected, 0, "x"⟩ fs0 =
      .ok (⟨"done", WStatus.collected, 0, "x"⟩, fs0, none) := by
  rfl

/-! ### Claim C10 -/

/-- Claim C10 (confirmed): calling `collect_results` while the worker status
is `error` or `collected` neither raises nor returns an `(exit_code,
message)` pair: every branch is skipped, the call returns `None`, and both
the worker state and the filesystem (hence the predictions directories) are
returned unchanged. -/
theorem C10_collect_noop (timeout : Nat) (w : Worker) (fs : FS)
    (h : w.status = WStatus.error ∨ w.status = WStatus.collected) :
    collect_results timeout w fs = .ok (w, fs, none) := by
  rcases h with h | h <;>
    rw [collect_results, if_neg (by rw [h]; simp), if_neg (by rw [h]; simp),
      if_neg (by rw [h]; simp)]

/-- Claim C10, witness: a worker in the `error` status collects to `None`
with nothing changed. -/
theorem C10_collect_noop_witness :
    collect_results 5 ⟨"sub", WStatus.error, 3, "boom"⟩ fs0 =
      .ok (⟨"sub", WStatus.error, 3, "boom"⟩, fs0, none) :=
  C10_collect_noop 5 ⟨"sub", WStatus.error, 3, "boom"⟩ fs0 (Or.inl rfl)
